import Mathlib

/-!
Verification of the schema/metadata scraper of pyTigerGraph
(`pyTigerGraphBase.py`): a shallow embedding of the line-oriented parser
`_ls`, the `SHOW USER` parser `_getUsers`, the by-name merge steps of
`_getSchema` (vertex/edge attribute merge and query-endpoint merge), the
edge-endpoint normalisation
`getEdgeSourceVertexType` / `getEdgeTargetVertexType`, the caching façade
`getSchema`, and the lookup accessors `getVertexType`, `getEdgeType`,
`getIndex`, `getUDT`.

Python strings are modelled as Lean `String` (operating on `String.data`,
the underlying `List Char`).  Python list indexing `xs[i]` (which raises
`IndexError` when out of range) is modelled in the `Except` monad with the
error `LsErr.indexOutOfRange i`.  The regular expressions used by the
source are modelled by dedicated character-level scanners that are faithful
on the input shapes the source ever feeds them (documented at each one).
-/

/-! ## Python-style string primitives -/

/-- Underlying characters of a string. -/
def chars (s : String) : List Char := s.data

/-- Rebuild a string from characters. -/
def mkStr (cs : List Char) : String := String.mk cs

/-- Python `\s` whitespace class (ASCII). -/
def isWsChar (c : Char) : Bool :=
  c == ' ' || c == '\t' || c == '\n' || c == '\r' || c == '\x0b' || c == '\x0c'

/-- First index at which `sub` occurs in `hay` (substring search). -/
def findSubChars (hay sub : List Char) : Option Nat :=
  (List.range (hay.length + 1)).find? (fun i => sub.isPrefixOf (hay.drop i))

/-- Python `str.find`: first index of `sub` in `s`, or `-1`. -/
def pyFind (s sub : String) : Int :=
  match findSubChars (chars s) (chars sub) with
  | some n => (n : Int)
  | none => -1

/-- Python `sub in s` (substring containment). -/
def pyContains (s sub : String) : Bool :=
  (findSubChars (chars s) (chars sub)).isSome

/-- Python `s.startswith(p)`. -/
def pyStartsWith (s p : String) : Bool := (chars p).isPrefixOf (chars s)

/-- Python `s.endswith(p)`. -/
def pyEndsWith (s p : String) : Bool := (chars p).isSuffixOf (chars s)

/-- Normalise a Python slice bound against a length `n`. -/
def pyNorm (n : Nat) (x : Int) : Nat :=
  if x < 0 then ((n : Int) + x).toNat else min x.toNat n

/-- Python `s[a:b]` (slice with Python's negative-index semantics). -/
def pySlice (s : String) (a b : Int) : String :=
  let cs := chars s
  mkStr (((cs.take (pyNorm cs.length b)).drop (pyNorm cs.length a)))

/-- Python `s[a:]`. -/
def pySliceFrom (s : String) (a : Int) : String :=
  pySlice s a ((chars s).length : Int)

/-- Python `s.lstrip()` (strip leading whitespace). -/
def pyLstrip (s : String) : String := mkStr ((chars s).dropWhile isWsChar)

/-- Python `s.lstrip(cs)` (strip leading characters from the set `cs`). -/
def pyLstripSet (s : String) (set : List Char) : String :=
  mkStr ((chars s).dropWhile (fun c => set.contains c))

/-- Python `s.rstrip(cs)` (strip trailing characters from the set `cs`). -/
def pyRstripSet (s : String) (set : List Char) : String :=
  mkStr (((chars s).reverse.dropWhile (fun c => set.contains c)).reverse)

/-- Python `s.rstrip()` (strip trailing whitespace). -/
def pyRstripWs (s : String) : String :=
  mkStr (((chars s).reverse.dropWhile isWsChar).reverse)

/-- Python `s.replace(a, b)` for single characters. -/
def pyReplaceChar (s : String) (a b : Char) : String :=
  mkStr ((chars s).map (fun c => if c == a then b else c))

/-- Python `s.upper()` (ASCII). -/
def pyUpper (s : String) : String := mkStr ((chars s).map Char.toUpper)

/-- Helper for Python `s.split(sep)` on a single-character separator:
splits at every occurrence, keeping empty pieces. -/
def splitCharAux (c : Char) : List Char → List Char → List String
  | [], acc => [mkStr acc.reverse]
  | x :: t, acc =>
    if x == c then mkStr acc.reverse :: splitCharAux c t []
    else splitCharAux c t (x :: acc)

/-- Python `s.split(sep)` with a one-character `sep`. -/
def pySplitChar (s : String) (c : Char) : List String :=
  splitCharAux c (chars s) []

/-- Helper for Python `s.split()` (no argument): split on whitespace runs,
no empty pieces. -/
def splitWsAux : List Char → List Char → List String
  | [], acc => if acc.isEmpty then [] else [mkStr acc.reverse]
  | x :: t, acc =>
    if isWsChar x then
      if acc.isEmpty then splitWsAux t []
      else mkStr acc.reverse :: splitWsAux t []
    else splitWsAux t (x :: acc)

/-- Python `s.split()` (whitespace split, no empties). -/
def pySplitWs (s : String) : List String := splitWsAux (chars s) []

/-- Helper for multi-character `s.split(sep)`: leftmost, non-overlapping.
The `skip` counter carries the remaining length of a matched separator so
the recursion stays structural. -/
def splitSubAux (sep : List Char) : Nat → List Char → List Char → List String
  | _ + 1, [], acc => [mkStr acc.reverse]
  | 0, [], acc => [mkStr acc.reverse]
  | n + 1, _ :: t, acc => splitSubAux sep n t acc
  | 0, x :: t, acc =>
    if sep.isPrefixOf (x :: t) then
      mkStr acc.reverse :: splitSubAux sep (sep.length - 1) t []
    else splitSubAux sep 0 t (x :: acc)

/-- Python `s.split(sep)` with a multi-character `sep` (e.g. `", "`). -/
def pySplitSub (s sep : String) : List String :=
  splitSubAux (chars sep) 0 (chars s) []

/-- Python `sep.join(xs)`. -/
def pyJoin (sep : String) (xs : List String) : String := String.intercalate sep xs

/-- Python list indexing `xs[n]`: `IndexError` when out of range.  The
error payload is the index (see `LsErr.indexOutOfRange`). -/
def pyIdx {α : Type} (xs : List α) (n : Nat) : Option α := xs.get? n

/-- Decidable equality for `Except` results. -/
instance {ε α : Type} [DecidableEq ε] [DecidableEq α] : DecidableEq (Except ε α)
  | .ok a, .ok b =>
    if h : a = b then .isTrue (by rw [h]) else .isFalse (fun he => h (Except.ok.inj he))
  | .ok _, .error _ => .isFalse (fun h => Except.noConfusion h)
  | .error _, .ok _ => .isFalse (fun h => Except.noConfusion h)
  | .error a, .error b =>
    if h : a = b then .isTrue (by rw [h]) else .isFalse (fun he => h (Except.error.inj he))

/-! ## Models of the regular expressions used by `_ls`

`_ls` uses three regex operations on loading-job text (all with
`re.IGNORECASE` where stated) and one on query text:

* `re.findall(r"DEFINE\s+FILENAME\s+.+?;", txt.replace("\n", " "))`
* `re.sub(r"DEFINE\s+FILENAME\s+", "", f)`
* `re.split(r"\s+=\s+", stmt)`
* `re.sub(r"[\s\S\n]+CREATE", "CREATE", text)`

They are modelled by dedicated scanners.  `\s+` is taken as the maximal
whitespace run (the regex engine's greedy behaviour; backtracking into a
shorter run can only matter when a `;` or `=` immediately follows the run,
which never happens in the statement shapes `_ls` scans). -/

/-- Case-insensitive prefix match; on success returns the remaining
characters. -/
def ciMatchLit : List Char → List Char → Option (List Char)
  | [], s => some s
  | _ :: _, [] => none
  | p :: ps, c :: cs => if p.toLower == c.toLower then ciMatchLit ps cs else none

/-- Match one-or-more whitespace characters (greedy); on success returns
the remaining characters. -/
def matchWs1 : List Char → Option (List Char)
  | [] => none
  | c :: cs => if isWsChar c then some (cs.dropWhile isWsChar) else none

/-- Match the pattern `DEFINE\s+FILENAME\s+` (case-insensitively) at the
start of `s`; returns the length of the match. -/
def defHeadLen (s : List Char) : Option Nat := do
  let r1 ← ciMatchLit (chars "DEFINE") s
  let r2 ← matchWs1 r1
  let r3 ← ciMatchLit (chars "FILENAME") r2
  let r4 ← matchWs1 r3
  pure (s.length - r4.length)

/-- Match `.+?;` at the start of `s`: at least one non-newline character,
then the nearest following `;` (lazy).  Returns the matched length. -/
def lazySemiLen : List Char → Option Nat
  | [] => none
  | c :: cs =>
    if c == '\n' then none
    else go cs 2
where
  go : List Char → Nat → Option Nat
    | [], _ => none
    | c :: cs, n =>
      if c == ';' then some n
      else if c == '\n' then none
      else go cs (n + 1)

/-- Match the full pattern `DEFINE\s+FILENAME\s+.+?;` at the start of `s`;
returns the matched length. -/
def defMatchLen (s : List Char) : Option Nat := do
  let h ← defHeadLen s
  let b ← lazySemiLen (s.drop h)
  pure (h + b)

/-- `re.findall(r"DEFINE\s+FILENAME\s+.+?;", s, re.IGNORECASE)`:
leftmost, non-overlapping matches.  The `skip` counter carries the
remaining length of a found match so the recursion stays structural. -/
def scanDefsAux : Nat → List Char → List String
  | _, [] => []
  | n + 1, _ :: t => scanDefsAux n t
  | 0, x :: t =>
    match defMatchLen (x :: t) with
    | some len => mkStr ((x :: t).take len) :: scanDefsAux (len - 1) t
    | none => scanDefsAux 0 t

/-- All `DEFINE FILENAME ... ;` matches in `s`. -/
def scanDefs (s : String) : List String := scanDefsAux 0 (chars s)

/-- `re.sub(r"DEFINE\s+FILENAME\s+", "", s, 0, re.IGNORECASE)`: delete all
matches of the head pattern. -/
def subDefHeadAux : Nat → List Char → List Char
  | _, [] => []
  | n + 1, _ :: t => subDefHeadAux n t
  | 0, x :: t =>
    match defHeadLen (x :: t) with
    | some len => subDefHeadAux (len - 1) t
    | none => x :: subDefHeadAux 0 t

/-- Delete all `DEFINE\s+FILENAME\s+` matches from `s`. -/
def subDefHead (s : String) : String := mkStr (subDefHeadAux 0 (chars s))

/-- Match `\s+=\s+` at the start of `s` (both runs greedy); returns the
matched length. -/
def eqSepLen (s : List Char) : Option Nat := do
  let r1 ← matchWs1 s
  match r1 with
  | '=' :: r2 =>
    let r3 ← matchWs1 r2
    pure (s.length - r3.length)
  | _ => none

/-- `re.split(r"\s+=\s+", s)`: split on every (leftmost, non-overlapping)
match of whitespace-equals-whitespace. -/
def splitEqAux : Nat → List Char → List Char → List String
  | _ + 1, [], acc => [mkStr acc.reverse]
  | 0, [], acc => [mkStr acc.reverse]
  | n + 1, _ :: t, acc => splitEqAux n t acc
  | 0, x :: t, acc =>
    match eqSepLen (x :: t) with
    | some len => mkStr acc.reverse :: splitEqAux (len - 1) t []
    | none => splitEqAux 0 t (x :: acc)

/-- Split `s` on `\s+=\s+`. -/
def splitEq (s : String) : List String := splitEqAux 0 (chars s) []

/-- `re.sub(r"[\s\S\n]+CREATE", "CREATE", s)` (the pattern `qpatt` of
`_ls`): the greedy `[\s\S\n]+` makes the single leftmost match run from
the start of `s` through the last occurrence of `CREATE` that begins at
index ≥ 1; that whole span is replaced by `CREATE`.  If `CREATE` never
occurs at an index ≥ 1 there is no match and `s` is unchanged. -/
def qsub (s : String) : String :=
  let cs := chars s
  let pat := chars "CREATE"
  let hits := (List.range cs.length).filter
    (fun j => decide (1 ≤ j) && pat.isPrefixOf (cs.drop j))
  match hits.getLast? with
  | some j => mkStr (pat ++ cs.drop (j + pat.length))
  | none => s

/-! ## The `_ls` scraper -/

/-- Errors of the embedded scraper.  `_ls` itself can only fail with
Python's `IndexError` (reading `res[i]` past the end, or list indexing
like `split(" ")[3]`), modelled by `indexOutOfRange` carrying the index.
`parseError` models the `ParseError` described by the specification; the
code never raises it — the constructor exists so that claims about
`ParseError` can be stated and settled.  `fuel` is a modelling artefact of
the outer loop's fuel; `lsScrape` always supplies sufficient fuel (each
outer-loop iteration consumes at least one input line). -/
inductive LsErr where
  | indexOutOfRange (i : Nat)
  | parseError (sec : String) (lastLine : Nat)
  | fuel
deriving DecidableEq

structure VertexTypeRec where
  Name : String
  Statement : String
deriving DecidableEq

structure IndexRec where
  Name : String
  Statement : String
  Vertex : String
  Attribute : String
deriving DecidableEq

structure EdgeTypeRec where
  Name : String
  Statement : String
deriving DecidableEq

structure QueryRec where
  Name : String
  Statement : String
  Deprecated : Bool
deriving DecidableEq

structure LoadingJobRec where
  Name : String
  Statement : String
  FilenameDefinitions : List (String × String)
deriving DecidableEq

structure ScjRec where
  Name : String
  Statement : String
deriving DecidableEq

structure UdtRec where
  Name : String
  Statement : String
deriving DecidableEq

/-- Data-source record; the Python dict key `"Type"` is the field
`DsType` (`Type` is reserved in Lean). -/
structure DsRec where
  Name : String
  DsType : String
  Details : String
  Statement : String
deriving DecidableEq

/-- Terminator test of the loading-job (and schema-change-job) body loop:
`"- CREATE" in line or line.startswith("Queries")`. -/
def isLjTerm (line : String) : Bool :=
  pyContains line "- CREATE" || pyStartsWith line "Queries"

/-- The loading-job body loop of `_ls` (also used verbatim for
schema-change jobs): starting at absolute line index `pos`, accumulate
lines into `txt` until a terminator line is found; stop AT the terminator
(returning it with the remaining lines and its index).  Running past the
end of the input raises `IndexError` at the failing index. -/
def ljBody : List String → Nat → String → Except LsErr (String × List String × Nat)
  | [], pos, _ => .error (.indexOutOfRange pos)
  | l :: rest, pos, txt =>
    if isLjTerm l then .ok (txt, l :: rest, pos)
    else ljBody rest (pos + 1) (txt ++ l ++ "\n")

/-- The member loop of the `Indexes:` section. -/
def idxLoop : List String → Nat → List IndexRec → Except LsErr (List IndexRec × List String × Nat)
  | [], pos, _ => .error (.indexOutOfRange pos)
  | line :: rest, pos, acc =>
    if pyStartsWith (pyLstrip line) "- " then
      let tmp1 := pySplitChar (pySliceFrom line (pyFind line "- " + 2)) ':'
      match pyIdx tmp1 1 with
      | none => .error (.indexOutOfRange 1)
      | some tmp2 =>
        let ixn := tmp1.headD ""
        let vtn := pySlice tmp2 0 (pyFind tmp2 "(")
        let att := pySlice tmp2 (pyFind tmp2 "(" + 1) (pyFind tmp2 ")")
        idxLoop rest (pos + 1)
          (acc ++ [{ Name := ixn, Statement := "", Vertex := vtn, Attribute := att }])
    else .ok (acc, line :: rest, pos)

/-- Parse one member line of the `Queries:` section.  `showQ` models
`self.execute("SHOW QUERY " + qName)` returning the command's output
lines. -/
def parseQueryLine (showQ : String → List String) (line : String) : QueryRec :=
  let qName := pySlice line (pyFind line "- " + 2) (pyFind line "(")
  let dep := pyEndsWith line "(deprecated)"
  let txt := qsub (pyJoin "\n" (showQ ("SHOW QUERY " ++ qName)))
  { Name := qName, Statement := txt, Deprecated := dep }

/-- The member loop of the `Queries:` section. -/
def quLoop (showQ : String → List String) :
    List String → Nat → List QueryRec → Except LsErr (List QueryRec × List String × Nat)
  | [], pos, _ => .error (.indexOutOfRange pos)
  | line :: rest, pos, acc =>
    if pyStartsWith (pyLstrip line) "- " then
      quLoop showQ rest (pos + 1) (acc ++ [parseQueryLine showQ line])
    else .ok (acc, line :: rest, pos)

/-- The member loop of the `User defined tuples:` section. -/
def udtLoop : List String → Nat → List UdtRec → Except LsErr (List UdtRec × List String × Nat)
  | [], pos, _ => .error (.indexOutOfRange pos)
  | line :: rest, pos, acc =>
    if pyStartsWith (pyLstrip line) "- " then
      let udtName := pyRstripWs (pySlice line (pyFind line "- " + 2) (pyFind line "("))
      let stmt := "TYPEDEF TUPLE <" ++ pySlice line (pyFind line "(" + 1) (-1) ++ "> " ++ udtName
      udtLoop rest (pos + 1) (acc ++ [{ Name := udtName, Statement := stmt }])
    else .ok (acc, line :: rest, pos)

/-- The member loop of the `Data Sources:` section. -/
def dsLoop : List String → Nat → List DsRec → Except LsErr (List DsRec × List String × Nat)
  | [], pos, _ => .error (.indexOutOfRange pos)
  | line :: rest, pos, acc =>
    if pyStartsWith (pyLstrip line) "- " then
      let ds := pySplitWs (pySliceFrom line (pyFind line "- " + 2))
      match pyIdx ds 1 with
      | none => .error (.indexOutOfRange 1)
      | some d1 =>
        match pyIdx ds 0 with
        | none => .error (.indexOutOfRange 0)
        | some d0 =>
          match pyIdx ds 2 with
          | none => .error (.indexOutOfRange 2)
          | some d2 =>
            let stmt := "CREATE DATA_SOURCE " ++ pyUpper d0 ++ " " ++ d1 ++ " = \"" ++
              pyReplaceChar (pyRstripSet (pyLstripSet d2 ['(']) [')']) '"' '\'' ++ "\""
            dsLoop rest (pos + 1)
              (acc ++ [{ Name := d1, DsType := d0, Details := d2, Statement := stmt }])
    else .ok (acc, line :: rest, pos)

/-- Extract the `(variable, path)` pairs from a loading-job statement:
`re.findall(r"DEFINE\s+FILENAME\s+.+?;", txt.replace("\n", " "), re.I)`,
then per match strip the head pattern, strip trailing `;`, and split on
`\s+=\s+`; a definition with no `=` yields an empty path. -/
def parseFds (txt : String) : List (String × String) :=
  (scanDefs (pyReplaceChar txt '\n' ' ')).map (fun f =>
    let parts := splitEq (pyRstripSet (subDefHead f) [';'])
    match parts with
    | [a, b] => (a, b)
    | a :: _ => (a, "")
    | [] => ("", ""))

/-- Collection-name constants of `pyTigerGraphBase.py`. -/
def GLOBAL : String := "GLOBAL"

def VTS : String := "VertexTypes"

def IXS : String := "Indexes"

def ETS : String := "EdgeTypes"

def QUS : String := "Queries"

def DSS : String := "DataSources"

def LJS : String := "LoadingJobs"

def SCJS : String := "SchemaChangeJobs"

def TAGS : String := "Tags"

def UDTS : String := "UserDefinedTypes"

/-- The nine accumulators of `_ls`. -/
structure LsAcc where
  vts : List VertexTypeRec
  ixs : List IndexRec
  ets : List EdgeTypeRec
  qus : List QueryRec
  dss : List DsRec
  ljs : List LoadingJobRec
  scjs : List ScjRec
  tags : List String
  udts : List UdtRec
deriving DecidableEq

/-- All accumulators empty. -/
def emptyAcc : LsAcc := ⟨[], [], [], [], [], [], [], [], []⟩

/-- One (typed) collection of the heterogeneous result dict of `_ls`. -/
inductive LsCol where
  | vcol (l : List VertexTypeRec)
  | icol (l : List IndexRec)
  | ecol (l : List EdgeTypeRec)
  | qcol (l : List QueryRec)
  | dcol (l : List DsRec)
  | lcol (l : List LoadingJobRec)
  | scol (l : List ScjRec)
  | tcol (l : List String)
  | ucol (l : List UdtRec)
deriving DecidableEq

/-- The final `ret` dict of `_ls`: the key set depends on whether the
current graph is the GLOBAL pseudo-scope (source lines 373-377). -/
def lsAssemble (g : String) (a : LsAcc) : List (String × LsCol) :=
  if g == GLOBAL then
    [(VTS, .vcol a.vts), (IXS, .icol a.ixs), (ETS, .ecol a.ets),
     (DSS, .dcol a.dss), (SCJS, .scol a.scjs), (UDTS, .ucol a.udts)]
  else
    [(VTS, .vcol a.vts), (IXS, .icol a.ixs), (ETS, .ecol a.ets),
     (QUS, .qcol a.qus), (DSS, .dcol a.dss), (LJS, .lcol a.ljs),
     (SCJS, .scol a.scjs), (TAGS, .tcol a.tags)]

/-- The main `while i < len(res)` loop of `_ls`.  `fuel` bounds the number
of outer-loop iterations; since every iteration consumes at least one
line, `res.length + 1` is always sufficient. -/
def lsLoop (showQ : String → List String) :
    Nat → List String → Nat → LsAcc → Except LsErr LsAcc
  | 0, _, _, _ => .error .fuel
  | _ + 1, [], _, st => .ok st
  | fuel + 1, line :: rest, pos, st =>
    if pyContains line "- VERTEX" then
      let vtn := pySlice line (pyFind line "- VERTEX " + 9) (pyFind line "(")
      let vt : VertexTypeRec := { Name := vtn, Statement := pySliceFrom line (pyFind line "- " + 2) }
      lsLoop showQ fuel rest (pos + 1) { st with vts := st.vts ++ [vt] }
    else if pyStartsWith line "Indexes:" then
      match idxLoop rest (pos + 1) st.ixs with
      | .error e => .error e
      | .ok (ixs, stopLines, stopPos) =>
        lsLoop showQ fuel (stopLines.drop 1) (stopPos + 1) { st with ixs := ixs }
    else if pyContains line "- DIRECTED EDGE" || pyContains line "- UNDIRECTED EDGE" then
      let etn := pySlice line (pyFind line "EDGE" + 5) (pyFind line "(")
      let et : EdgeTypeRec := { Name := etn, Statement := pySliceFrom line (pyFind line "- " + 2) }
      lsLoop showQ fuel rest (pos + 1) { st with ets := st.ets ++ [et] }
    else if pyContains line "- CREATE LOADING JOB" then
      let stmt := pySliceFrom line (pyFind line "- " + 2)
      match pyIdx (pySplitChar stmt ' ') 3 with
      | none => .error (.indexOutOfRange 3)
      | some jobName =>
        match ljBody rest (pos + 1) (stmt ++ "\n") with
        | .error e => .error e
        | .ok (txt, stopLines, stopPos) =>
          let txt := pyRstripSet txt [' ', '\n']
          let lj : LoadingJobRec :=
            { Name := jobName, Statement := txt, FilenameDefinitions := parseFds txt }
          lsLoop showQ fuel stopLines stopPos { st with ljs := st.ljs ++ [lj] }
    else if pyContains line "- CREATE SCHEMA_CHANGE JOB" then
      let stmt := pySliceFrom line (pyFind line "- " + 2)
      match pyIdx (pySplitChar stmt ' ') 3 with
      | none => .error (.indexOutOfRange 3)
      | some jobName =>
        match ljBody rest (pos + 1) (stmt ++ "\n") with
        | .error e => .error e
        | .ok (txt, stopLines, stopPos) =>
          let scj : ScjRec := { Name := jobName, Statement := pyRstripSet txt [' ', '\n'] }
          lsLoop showQ fuel stopLines stopPos { st with scjs := st.scjs ++ [scj] }
    else if pyStartsWith line "Queries:" then
      match quLoop showQ rest (pos + 1) st.qus with
      | .error e => .error e
      | .ok (qus, stopLines, stopPos) =>
        lsLoop showQ fuel (stopLines.drop 1) (stopPos + 1) { st with qus := qus }
    else if pyStartsWith line "User defined tuples:" then
      match udtLoop rest (pos + 1) st.udts with
      | .error e => .error e
      | .ok (udts, stopLines, stopPos) =>
        lsLoop showQ fuel (stopLines.drop 1) (stopPos + 1) { st with udts := udts }
    else if pyStartsWith line "Data Sources:" then
      match dsLoop rest (pos + 1) st.dss with
      | .error e => .error e
      | .ok (dss, stopLines, stopPos) =>
        lsLoop showQ fuel (stopLines.drop 1) (stopPos + 1) { st with dss := dss }
    else
      lsLoop showQ fuel rest (pos + 1) st

/-- Model of `_ls` (source lines 231-377): scan the output lines `res` of
the `LS` command for the graph scope `g`, with `showQ` standing for the
GSQL executor used for the secondary `SHOW QUERY` commands. -/
def _ls (g : String) (showQ : String → List String) (res : List String) :
    Except LsErr (List (String × LsCol)) :=
  match lsLoop showQ (res.length + 1) res 0 emptyAcc with
  | .ok a => .ok (lsAssemble g a)
  | .error e => .error e

/-- Does a scraper result carry the spec's `ParseError`? -/
def isParseErr {α : Type} : Except LsErr α → Bool
  | .error (.parseError _ _) => true
  | _ => false

/-- The `Queries` collection of an `_ls` result (empty on error/absence). -/
def qusOf (r : Except LsErr (List (String × LsCol))) : List QueryRec :=
  match r with
  | .ok l =>
    match l.find? (fun p => p.1 == QUS) with
    | some (_, .qcol q) => q
    | _ => []
  | .error _ => []

/-- The `LoadingJobs` collection of an `_ls` result (empty on
error/absence). -/
def ljsOf (r : Except LsErr (List (String × LsCol))) : List LoadingJobRec :=
  match r with
  | .ok l =>
    match l.find? (fun p => p.1 == LJS) with
    | some (_, .lcol j) => j
    | _ => []
  | .error _ => []

/-- Model of `getLoadingJobs` (source lines 1235-1241): reads
`schema["LoadingJobs"]` — a Python `KeyError` when the key is absent —
and lists the job names. -/
def getLoadingJobsNames (schema : List (String × LsCol)) : Except String (List String) :=
  match schema.find? (fun p => p.1 == LJS) with
  | some (_, .lcol ljs) => .ok (ljs.map LoadingJobRec.Name)
  | some _ => .error "TypeError"
  | none => .error ("KeyError: " ++ LJS)

/-! ## The `SHOW USER` parser `_getUsers` (source lines 429-478) -/

/-- One secret's details: `sd = {"Graph": "", "Alias": "", "Tokens": []}`. -/
structure SecretRec where
  Graph : String
  Alias : String
  Tokens : List (String × String)
deriving DecidableEq

/-- A parsed user record.  `LocalRoles` entries model the single-key
dicts `{graphName: roles}` the source appends; `Secrets` models the
insertion-ordered dict `ses`. -/
structure UserRec where
  Name : String
  GlobalRoles : List String
  LocalRoles : List (String × List String)
  Secrets : List (String × SecretRec)
deriving DecidableEq

/-- Set a key in an insertion-ordered dict (Python `d[k] = v`): replace
the value at the first occurrence of the key, else append. -/
def setKey {α : Type} : List (String × α) → String → α → List (String × α)
  | [], k, v => [(k, v)]
  | p :: t, k, v => if p.1 == k then (k, v) :: t else p :: setKey t k v

/-- Update one secret record from a line of its sub-block. -/
def secUpd (sd : SecretRec) (line : String) : SecretRec :=
  if pyContains line "- GraphName: " then
    { sd with Graph := pySliceFrom line (pyFind line ": " + 2) }
  else if pyContains line "- Alias: " then
    { sd with Alias := pySliceFrom line (pyFind line ": " + 2) }
  else if pyContains line "- Token: " then
    let token := pySlice line (pyFind line "- Token: " + 9) (pyFind line " expire at: ")
    let exp := pySliceFrom line (pyFind line " expire at: " + 12)
    { sd with Tokens := sd.Tokens ++ [(token, exp)] }
  else sd

/-- The secret sub-block loop: the current line `cur` (at index `pos`)
has already been read; loop while it is non-empty and not a new
`- Secret: ` line.  (The loop's `i < len(res)` conjunct is dead code:
`i` only changes at reads, which raise `IndexError` first.)  Stops AT the
terminating line. -/
def secLoop : String → List String → Nat → SecretRec →
    Except LsErr (SecretRec × String × List String × Nat)
  | cur, rest, pos, sd =>
    if cur != "" && !pyContains cur "- Secret: " then
      let sd := secUpd sd cur
      match rest with
      | [] => .error (.indexOutOfRange (pos + 1))
      | r :: rs => secLoop r rs (pos + 1) sd
    else .ok (sd, cur, rest, pos)

/-- The per-user inner loop (`while line != ""`), carrying the current
line `cur` at index `pos`.  `fuel` bounds the iterations; every iteration
consumes at least one line, so the caller's `res.length + 1` is always
sufficient.  Stops AT the empty line. -/
def userBody : Nat → String → List String → Nat →
    List String → List (String × List String) → List (String × SecretRec) →
    Except LsErr (List String × List (String × List String) × List (String × SecretRec) ×
      List String × Nat)
  | 0, _, _, _, _, _, _ => .error .fuel
  | fuel + 1, cur, rest, pos, grs, lrs, ses =>
    if cur != "" then
      if pyContains cur "- Roles: " then
        let grs := pySplitSub (pySliceFrom cur (pyFind cur ": " + 2)) ", "
        match rest with
        | [] => .error (.indexOutOfRange (pos + 1))
        | r :: rs => userBody fuel r rs (pos + 1) grs lrs ses
      else if pyContains cur "- GraphName: " then
        let gn := pySliceFrom cur (pyFind cur ": " + 2)
        match rest with
        | [] => .error (.indexOutOfRange (pos + 1))
        | roleLine :: rest2 =>
          let lrs := lrs ++ [(gn, pySplitSub (pySliceFrom roleLine (pyFind roleLine ":" + 2)) ", ")]
          match rest2 with
          | [] => .error (.indexOutOfRange (pos + 2))
          | r :: rs => userBody fuel r rs (pos + 2) grs lrs ses
      else if pyContains cur "- Secret: " then
        let se := pySliceFrom cur (pyFind cur "- Secret: " + 10)
        match rest with
        | [] => .error (.indexOutOfRange (pos + 1))
        | r0 :: rs0 =>
          match secLoop r0 rs0 (pos + 1) { Graph := "", Alias := "", Tokens := [] } with
          | .error e => .error e
          | .ok (sd, stopCur, stopRest, stopPos) =>
            -- `i -= 1` then the common `i += 1; line = res[i]` re-reads the stop line
            userBody fuel stopCur stopRest stopPos grs lrs (setKey ses se sd)
      else
        match rest with
        | [] => .error (.indexOutOfRange (pos + 1))
        | r :: rs => userBody fuel r rs (pos + 1) grs lrs ses
    else .ok (grs, lrs, ses, cur :: rest, pos)

/-- The outer `while i < len(res)` loop of `_getUsers`. -/
def usersLoop (n : Nat) : Nat → List String → Nat → List UserRec → Except LsErr (List UserRec)
  | 0, _, _, _ => .error .fuel
  | _ + 1, [], _, us => .ok us
  | fuel + 1, line :: rest, pos, us =>
    if pyContains line "- Name:" then
      let uName := pySliceFrom line (pyFind line "- Name: " + 8)
      match rest with
      | [] => .error (.indexOutOfRange (pos + 1))
      | r :: rs =>
        match userBody (n + 1) r rs (pos + 1) [] [] [] with
        | .error e => .error e
        | .ok (grs, lrs, ses, stopLines, stopPos) =>
          usersLoop n fuel (stopLines.drop 1) (stopPos + 1)
            (us ++ [{ Name := uName, GlobalRoles := grs, LocalRoles := lrs, Secrets := ses }])
    else usersLoop n fuel rest (pos + 1) us

/-- Model of `_getUsers` (source lines 429-478): parse the output lines of
`SHOW USER` into user records.  Note the source recognises no reserved
administrative account: every block whose header contains `- Name:`
produces a record. -/
def _getUsers (res : List String) : Except LsErr (List UserRec) :=
  usersLoop res.length (res.length + 1) res 0 []

/-! ## Python dicts as insertion-ordered association lists

`_getSchema` merges JSON records into scraped records with `vt.update(vt2)`
(source lines 532-554).  Records are modelled as insertion-ordered
association lists over a small JSON value type; `dict.update` folds
`setKey` over the payload's entries. -/

/-- A minimal JSON value type for record fields. -/
inductive JVal where
  | str (s : String)
  | boolean (b : Bool)
  | num (n : Int)
  | attrs (l : List (String × String))
deriving DecidableEq

/-- A Python dict/record. -/
abbrev PyDict (α : Type) := List (String × α)

/-- Python `d[k]` as an `Option` (`d.get(k)`). -/
def pyLookup {α : Type} (d : PyDict α) (k : String) : Option α :=
  (d.find? (fun p => p.1 == k)).map (fun p => p.2)

/-- Python `d.update(p)`: set every key of `p` in `d`, in order. -/
def dictUpdate {α : Type} (d p : PyDict α) : PyDict α :=
  p.foldl (fun acc q => setKey acc q.1 q.2) d

/-- The keys of a dict, in order. -/
def keysD {α : Type} (d : PyDict α) : List String := d.map (fun p => p.1)

/-- The value at the LAST occurrence of a key (what a fold of single-key
writes leaves behind when the key repeats). -/
def lastLookup {α : Type} : PyDict α → String → Option α
  | [], _ => none
  | q :: t, k =>
    match lastLookup t k with
    | some v => some v
    | none => if q.1 == k then some q.2 else none

/-- Python `d.pop(k)` (ignoring the returned value): remove the first
occurrence of the key. -/
def pyPop {α : Type} : PyDict α → String → PyDict α
  | [], _ => []
  | p :: t, k => if p.1 == k then t else p :: pyPop t k

/-- The inner `for vt in ret[VTS]: if vt["Name"] == vt2["Name"]:
vt.update(vt2); break` loop of `_getSchema`: update the FIRST record
whose `"Name"` equals the payload record's `"Name"`; if none matches, the
payload record is ignored. -/
def updFirst {α : Type} [DecidableEq α] : List (PyDict α) → PyDict α → List (PyDict α)
  | [], _ => []
  | r :: t, p =>
    if pyLookup r "Name" == pyLookup p "Name" then dictUpdate r p :: t
    else r :: updFirst t p

/-- The outer `for vt2 in vts2:` loop of `_getSchema`'s vertex-type (and
edge-type) merge: fold the JSON payload records into the scraped
collection by name. -/
def mergeByName {α : Type} [DecidableEq α] (c : List (PyDict α)) (ps : List (PyDict α)) :
    List (PyDict α) :=
  ps.foldl updFirst c

/-! ## The query merge of `_getSchema` (source lines 556-577) -/

/-- A query-parameter descriptor (a small string dict; only `"default"`
is ever read by the merge). -/
abbrev PDesc := List (String × String)

/-- The `parameters` dict of one endpoint: parameter name → descriptor. -/
abbrev Params := List (String × PDesc)

/-- A query record as the merge sees it: text-scrape fields
(`Statement`, `Deprecated`) and REST-enrichment fields (`Parameters`,
`Endpoint`, `Method`) are optional, mirroring dict keys that may be
absent. -/
structure QueryRecM where
  Name : String
  Statement : Option String
  Deprecated : Option Bool
  Parameters : Option Params
  Endpoint : Option String
  Method : Option String
deriving DecidableEq

/-- A text-scraped query record (`_ls` always sets `Statement` and
`Deprecated`). -/
def textQuery (q : QueryRec) : QueryRecM :=
  { Name := q.Name, Statement := some q.Statement, Deprecated := some q.Deprecated,
    Parameters := none, Endpoint := none, Method := none }

/-- Update the first record with the given name; returns the new list and
whether a record was found. -/
def updFirstQ (qus : List QueryRecM) (qName : String) (f : QueryRecM → QueryRecM) :
    List QueryRecM × Bool :=
  match qus with
  | [] => ([], false)
  | q :: t =>
    if q.Name == qName then (f q :: t, true)
    else
      let (t2, found) := updFirstQ t qName f
      (q :: t2, found)

/-- Process one endpoint entry `(ep, epData)` of `eps`:
`qName = epData["parameters"]["query"]["default"]`; find-or-append the
query record by name; set `Parameters` (with `"query"` popped),
`Endpoint` (= `ep.split(" ")[1]`) and `Method` (= `ep.split(" ")[0]`).
Missing keys/indexes raise (modelled as string errors). -/
def applyEp (qus : List QueryRecM) (e : String × Params) : Except String (List QueryRecM) := do
  let qd ← match pyLookup e.2 "query" with
    | some d => Except.ok d
    | none => Except.error "KeyError: query"
  let qName ← match pyLookup qd "default" with
    | some n => Except.ok n
    | none => Except.error "KeyError: default"
  let params2 := pyPop e.2 "query"
  let parts := pySplitChar e.1 ' '
  let ep ← match pyIdx parts 1 with
    | some s => Except.ok s
    | none => Except.error "IndexError: 1"
  let meth ← match pyIdx parts 0 with
    | some s => Except.ok s
    | none => Except.error "IndexError: 0"
  let enrich := fun (q : QueryRecM) =>
    { q with Parameters := some params2, Endpoint := some ep, Method := some meth }
  let (qus2, found) := updFirstQ qus qName enrich
  if found then pure qus2
  else
    let base : QueryRecM :=
      { Name := qName, Statement := none, Deprecated := none,
        Parameters := none, Endpoint := none, Method := none }
    pure (qus2 ++ [enrich base])

/-- The query merge of `_getSchema`: fold all endpoint entries into the
text-scraped query collection. -/
def mergeQueries (qus : List QueryRecM) (eps : List (String × Params)) :
    Except String (List QueryRecM) :=
  eps.foldlM applyEp qus

/-! ## Edge endpoint normalisation (source lines 934-998) -/

/-- One entry of the `EdgePairs` list of the REST JSON edge details. -/
structure EdgePairRec where
  From : String
  To : String
deriving DecidableEq

/-- The fields of the JSON-enriched edge-type details read by the two
normalisation accessors.  `EdgePairs` is `none` when the key is absent
(2.6.1-and-earlier notation). -/
structure EdgeDetails where
  FromVertexTypeName : String
  ToVertexTypeName : String
  EdgePairs : Option (List EdgePairRec)
deriving DecidableEq

/-- Python `set.add` on an insertion-ordered model of a set. -/
def pySetAdd (s : List String) (x : String) : List String :=
  if x ∈ s then s else s ++ [x]

/-- Model of `getEdgeSourceVertexType` (source lines 934-965), applied to
the edge type's details. -/
def getEdgeSourceVertexType (d : EdgeDetails) : List String :=
  if d.FromVertexTypeName != "*" then [d.FromVertexTypeName]
  else
    match d.EdgePairs with
    | some eps => eps.foldl (fun s ep => pySetAdd s ep.From) []
    | none => ["*"]

/-- Model of `getEdgeTargetVertexType` (source lines 967-998). -/
def getEdgeTargetVertexType (d : EdgeDetails) : List String :=
  if d.ToVertexTypeName != "*" then [d.ToVertexTypeName]
  else
    match d.EdgePairs with
    | some eps => eps.foldl (fun s ep => pySetAdd s ep.To) []
    | none => ["*"]

/-! ## The caching façade `getSchema` (source lines 693-716) -/

/-- An abstract cached schema value (the concrete dict shape does not
matter to the caching logic). -/
abbrev SchemaObj := List (String × LsCol)

/-- The connection state seen by `getSchema`: the current graph name and,
per scope, whether a schema is cached (`self.graphs[g][SCH]`).  The
constructor and `useGraph` guarantee every scope that can be current has
an entry in `graphs`, so a missing entry and a missing `SCH` key both map
to `none`. -/
structure ConnSt where
  graphName : String
  graphs : List (String × Option SchemaObj)
deriving DecidableEq

/-- The observable side effects of a `getSchema` call: a full refresh of
the GLOBAL scope (`_getSchema(True)`: the LS scrape at global scope) or of
the current graph (`_getSchema()`: LS scrape plus REST enrichment calls). -/
inductive Eff where
  | fetchGlobal
  | fetchLocal (g : String)
deriving DecidableEq

/-- The cached schema of a scope, if any. -/
def lookupSch (st : ConnSt) (g : String) : Option SchemaObj :=
  (pyLookup st.graphs g).join

/-- Cache a schema for a scope. -/
def setSch (st : ConnSt) (g : String) (v : SchemaObj) : ConnSt :=
  { st with graphs := setKey st.graphs g (some v) }

/-- Model of `getSchema(force)`: `fg` and `fl` stand for the schema
values the two `_getSchema` variants would produce.  Returns the new
state, the returned schema (`self.graphs[self.graphName][SCH]`) and the
ordered list of refresh effects. -/
def getSchemaF (fg fl : SchemaObj) (st : ConnSt) (force : Bool) :
    ConnSt × Option SchemaObj × List Eff :=
  let needG := (lookupSch st GLOBAL).isNone || force
  let st1 := if needG then setSch st GLOBAL fg else st
  let e1 : List Eff := if needG then [.fetchGlobal] else []
  let needL := st.graphName != GLOBAL && ((lookupSch st1 st.graphName).isNone || force)
  let st2 := if needL then setSch st1 st.graphName fl else st1
  let e2 : List Eff := if needL then [.fetchLocal st.graphName] else []
  (st2, lookupSch st2 st.graphName, e1 ++ e2)

/-! ## Lookup accessors (source lines 749-767, 892-904, 920-932, 1158-1174)

The collections are lists of records (modelled as dicts); each accessor
scans for the first record whose `"Name"` equals the requested name.
Scraped records always carry a `"Name"` key (`_ls` sets it on every
record), so `vt["Name"]` never raises here and is modelled as
`pyLookup r "Name"`. -/

/-- Model of `getVertexType`: first match by name, else the empty dict. -/
def getVertexTypeRec (vts : List (PyDict JVal)) (n : String) : PyDict JVal :=
  match vts.find? (fun r => pyLookup r "Name" == some (JVal.str n)) with
  | some r => r
  | none => []

/-- Model of `getIndex`: first match by name, else the empty dict. -/
def getIndexRec (ixs : List (PyDict JVal)) (n : String) : PyDict JVal :=
  match ixs.find? (fun r => pyLookup r "Name" == some (JVal.str n)) with
  | some r => r
  | none => []

/-- Model of `getEdgeType`: first match by name, else the empty dict. -/
def getEdgeTypeRec (ets : List (PyDict JVal)) (n : String) : PyDict JVal :=
  match ets.find? (fun r => pyLookup r "Name" == some (JVal.str n)) with
  | some r => r
  | none => []

/-- Model of `getUDT`: first match by name, else
`raise TigerGraphException("Invalid UDT name: " + udtName)`. -/
def getUDTRec (udts : List (PyDict JVal)) (n : String) : Except String (PyDict JVal) :=
  match udts.find? (fun r => pyLookup r "Name" == some (JVal.str n)) with
  | some r => .ok r
  | none => .error ("Invalid UDT name: " ++ n)

/-! ## Concrete test fixtures -/

/-- A `SHOW QUERY` oracle returning no output lines. -/
def noQ : String → List String := fun _ => []

/-- A truncated LS output: a loading-job block with no terminating line. -/
def resTrunc : List String :=
  ["  - CREATE LOADING JOB j1 FOR GRAPH g",
   "      DEFINE FILENAME f1;",
   "      LOAD x TO VERTEX v;"]

/-- A well-terminated LS output containing the loading job of the
round-trip claim. -/
def resJob : List String :=
  ["Loading jobs:",
   "  - CREATE LOADING JOB j1 FOR GRAPH g",
   "      DEFINE FILENAME f1 = \"a.csv\";",
   "      DEFINE FILENAME f2;",
   "Queries:",
   ""]

/-- A loading job whose filename definition is written in lower case
(exercising the case-insensitive match). -/
def resJobCi : List String :=
  ["  - CREATE LOADING JOB j2 FOR GRAPH g",
   "      define filename f9 = \"b.csv\";",
   "Queries:",
   ""]

/-- A `Queries:` section with a deprecated and a plain listing line. -/
def resQu : List String :=
  ["Queries:",
   "- q4 (deprecated)",
   "- q5",
   ""]

/-- A `SHOW USER` output: the reserved administrative account followed by
two ordinary users. -/
def resUsers : List String :=
  ["  - Name: tigergraph",
   "    - Roles: superuser",
   "",
   "  - Name: u1",
   "    - Roles: admin, querywriter",
   "",
   "  - Name: u2",
   "    - Roles: queryreader",
   ""]

/-- The records of a `_getUsers` result (empty on error). -/
def usersOf (r : Except LsErr (List UserRec)) : List UserRec :=
  match r with
  | .ok us => us
  | .error _ => []

/-! # Theorems -/

/-! ## C1: truncated loading-job block -/

/-- C1 (amended): if a loading-job body is never terminated (no following
line contains `- CREATE` or starts with `Queries`), the body loop of
`_ls` runs past the end of the line list and fails with Python's
`IndexError` at index `pos + lines.length` (= `len(res)` when `lines` is
the rest of the input) — not with a `ParseError`, and without returning a
truncated record. -/
theorem c1_truncated_job_index_error (lines : List String) (pos : Nat) (txt : String)
    (h : ∀ l ∈ lines, isLjTerm l = false) :
    ljBody lines pos txt = .error (.indexOutOfRange (pos + lines.length)) := by
  induction lines generalizing pos txt with
  | nil => simp [ljBody]
  | cons l rest ih =>
    have hl : isLjTerm l = false := h l (List.mem_cons_self l rest)
    have hrest : ∀ x ∈ rest, isLjTerm x = false := fun x hx => h x (List.mem_cons_of_mem l hx)
    have := ih (pos + 1) (txt ++ l ++ "\n") hrest
    simp only [ljBody, hl, Bool.false_eq_true, if_false, this, List.length_cons]
    congr 2
    omega

/-- Witness for C1 at a concrete truncated body. -/
theorem c1_truncated_job_index_error_witness :
    ljBody ["      DEFINE FILENAME f1;", "      LOAD x TO VERTEX v;"] 1 "t"
      = .error (.indexOutOfRange 3) :=
  c1_truncated_job_index_error _ 1 "t" (by decide)

/-- C1 counterexample to the claim as stated: on a concrete LS output
whose loading-job block has no terminator, `_ls` fails with the
index-out-of-range error (at index 3 = the input length), and does NOT
raise the `ParseError` the claim requires. -/
theorem c1_counterexample :
    _ls "g" noQ resTrunc = .error (LsErr.indexOutOfRange 3)
    ∧ isParseErr (_ls "g" noQ resTrunc) = false := by
  constructor
  · decide
  · decide

/-! ## C2: edge endpoint normalisation -/

/-- `set.add` membership. -/
theorem mem_pySetAdd (s : List String) (a x : String) :
    x ∈ pySetAdd s a ↔ x ∈ s ∨ x = a := by
  by_cases h : a ∈ s
  · simp only [pySetAdd, if_pos h]
    constructor
    · exact Or.inl
    · rintro (hx | rfl)
      · exact hx
      · exact h
  · simp [pySetAdd, h]

/-- Folding `set.add` collects exactly the elements. -/
theorem mem_foldl_pySetAdd (l : List String) :
    ∀ (init : List String) (x : String),
      x ∈ l.foldl pySetAdd init ↔ x ∈ init ∨ x ∈ l := by
  induction l with
  | nil => simp
  | cons a t ih =>
    intro init x
    simp only [List.foldl_cons, ih, mem_pySetAdd, List.mem_cons]
    tauto

/-- C2 (confirmed): with a concrete `FromVertexTypeName` the source
accessor returns exactly that name regardless of `EdgePairs`; with the
wildcard and an `EdgePairs` list it returns exactly the set of the
pairs' `From` fields; with the wildcard and no `EdgePairs` key it returns
`["*"]`.  `getEdgeTargetVertexType` is symmetric on `ToVertexTypeName`
and the pairs' `To` fields. -/
theorem c2_edge_endpoint_normalization (d : EdgeDetails) :
    (d.FromVertexTypeName ≠ "*" → getEdgeSourceVertexType d = [d.FromVertexTypeName])
    ∧ (∀ eps, d.FromVertexTypeName = "*" → d.EdgePairs = some eps →
        ∀ x, x ∈ getEdgeSourceVertexType d ↔ x ∈ eps.map EdgePairRec.From)
    ∧ (d.FromVertexTypeName = "*" → d.EdgePairs = none → getEdgeSourceVertexType d = ["*"])
    ∧ (d.ToVertexTypeName ≠ "*" → getEdgeTargetVertexType d = [d.ToVertexTypeName])
    ∧ (∀ eps, d.ToVertexTypeName = "*" → d.EdgePairs = some eps →
        ∀ x, x ∈ getEdgeTargetVertexType d ↔ x ∈ eps.map EdgePairRec.To)
    ∧ (d.ToVertexTypeName = "*" → d.EdgePairs = none → getEdgeTargetVertexType d = ["*"]) := by
  refine ⟨fun h => ?_, fun eps h1 h2 x => ?_, fun h1 h2 => ?_,
    fun h => ?_, fun eps h1 h2 x => ?_, fun h1 h2 => ?_⟩
  · simp [getEdgeSourceVertexType, bne_iff_ne, h]
  · rw [getEdgeSourceVertexType, h1, h2]
    simp only [bne_self_eq_false, Bool.false_eq_true, if_false]
    rw [← List.foldl_map EdgePairRec.From pySetAdd]
    simp [mem_foldl_pySetAdd]
  · simp [getEdgeSourceVertexType, h1, h2]
  · simp [getEdgeTargetVertexType, bne_iff_ne, h]
  · rw [getEdgeTargetVertexType, h1, h2]
    simp only [bne_self_eq_false, Bool.false_eq_true, if_false]
    rw [← List.foldl_map EdgePairRec.To pySetAdd]
    simp [mem_foldl_pySetAdd]
  · simp [getEdgeTargetVertexType, h1, h2]

/-- Witness for C2: pairs (A,X),(B,X) under the wildcard yield the set
containing B; a concrete source name A is returned as [A] even with
pairs present. -/
theorem c2_edge_endpoint_normalization_witness :
    ("B" ∈ getEdgeSourceVertexType ⟨"*", "X", some [⟨"A", "X"⟩, ⟨"B", "X"⟩]⟩)
    ∧ getEdgeSourceVertexType ⟨"A", "X", some [⟨"C", "X"⟩]⟩ = ["A"] :=
  ⟨((c2_edge_endpoint_normalization ⟨"*", "X", some [⟨"A", "X"⟩, ⟨"B", "X"⟩]⟩).2.1
      [⟨"A", "X"⟩, ⟨"B", "X"⟩] rfl rfl "B").mpr (by decide),
   (c2_edge_endpoint_normalization ⟨"A", "X", some [⟨"C", "X"⟩]⟩).1 (by decide)⟩

/-! ## C3: loading-job round trip -/

/-- C3 counterexample to the claim as stated: on the claimed block the
extracted filename definitions are `[("f1", "\"a.csv\""), ("f2", "")]` —
the path keeps its surrounding double quotes (the raw right-hand side of
the `=`), so the claimed value `[("f1", "a.csv"), ("f2", "")]` is wrong. -/
theorem c3_counterexample :
    (ljsOf (_ls "g" noQ resJob)).map LoadingJobRec.FilenameDefinitions
      = [[("f1", "\"a.csv\""), ("f2", "")]]
    ∧ [("f1", "\"a.csv\""), ("f2", "")] ≠ [("f1", "a.csv"), ("f2", "")] := by
  constructor
  · decide
  · decide

/-- C3 (amended): the block yields one LoadingJobRecord with Name `j1`
(the 4th single-space-separated token of the first line after its leading
indentation and bullet are stripped), FilenameDefinitions
`[("f1", "\"a.csv\""), ("f2", "")]` — the path is the verbatim right-hand
side of the `=`, quotes included, and a `DEFINE FILENAME` with no `=`
yields an empty path — and a raw Statement equal to the block with the
first line's leading indentation and bullet stripped (subsequent lines
verbatim).  The `DEFINE FILENAME` scan is case-insensitive (second
conjunct, a lower-case `define filename`). -/
theorem c3_loading_job_roundtrip :
    ljsOf (_ls "g" noQ resJob)
      = [{ Name := "j1",
           Statement := "CREATE LOADING JOB j1 FOR GRAPH g\n      DEFINE FILENAME f1 = \"a.csv\";\n      DEFINE FILENAME f2;",
           FilenameDefinitions := [("f1", "\"a.csv\""), ("f2", "")] }]
    ∧ ljsOf (_ls "g" noQ resJobCi)
      = [{ Name := "j2",
           Statement := "CREATE LOADING JOB j2 FOR GRAPH g\n      define filename f9 = \"b.csv\";",
           FilenameDefinitions := [("f9", "\"b.csv\"")] }] := by
  constructor
  · decide
  · decide

/-! ## C4: query merge completeness -/

/-- C4 (confirmed): a text scrape discovering `q1` and `q2` merged with
endpoint metadata reporting only `q2` and `q3` yields exactly the records
`q1` (text fields only), `q2` (text fields plus REST `Parameters`,
`Endpoint`, `Method`) and `q3` (REST fields only): nothing is dropped and
nothing is duplicated. -/
theorem c4_query_merge_completeness
    (q1 q2 q3 s1 s2 : String) (d1 d2 : Bool) (ps2 ps3 : Params)
    (h21 : q2 ≠ q1) (h31 : q3 ≠ q1) (h32 : q3 ≠ q2) :
    mergeQueries
      [textQuery ⟨q1, s1, d1⟩, textQuery ⟨q2, s2, d2⟩]
      [("GET /query/g/a", ("query", [("default", q2)]) :: ps2),
       ("GET /query/g/b", ("query", [("default", q3)]) :: ps3)]
    = .ok [⟨q1, some s1, some d1, none, none, none⟩,
           ⟨q2, some s2, some d2, some ps2, some "/query/g/a", some "GET"⟩,
           ⟨q3, none, none, some ps3, some "/query/g/b", some "GET"⟩] := by
  have hb21 : (q1 == q2) = false := by simp [h21.symm]
  have hb22 : (q2 == q2) = true := by simp
  have hb31 : (q1 == q3) = false := by simp [h31.symm]
  have hb32 : (q2 == q3) = false := by simp [h32.symm]
  have hpartsA : pySplitChar "GET /query/g/a" ' ' = ["GET", "/query/g/a"] := by decide
  have hpartsB : pySplitChar "GET /query/g/b" ' ' = ["GET", "/query/g/b"] := by decide
  simp only [mergeQueries, List.foldlM, applyEp, textQuery, pyLookup, List.find?, pyPop,
    hpartsA, hpartsB, pyIdx, List.get?, updFirstQ, hb21, hb22, hb31, hb32,
    beq_self_eq_true, if_true, if_false, Bool.false_eq_true, Option.map_some',
    bind, Except.bind, pure, Except.pure]
  rfl

/-- Witness for C4 at concrete names and payloads. -/
theorem c4_query_merge_completeness_witness :
    mergeQueries
      [textQuery ⟨"q1", "s1", false⟩, textQuery ⟨"q2", "s2", true⟩]
      [("GET /query/g/a", ("query", [("default", "q2")]) :: [("p", [("type", "INT64")])]),
       ("GET /query/g/b", ("query", [("default", "q3")]) :: [])]
    = .ok [⟨"q1", some "s1", some false, none, none, none⟩,
           ⟨"q2", some "s2", some true, some [("p", [("type", "INT64")])],
             some "/query/g/a", some "GET"⟩,
           ⟨"q3", none, none, some [], some "/query/g/b", some "GET"⟩] :=
  c4_query_merge_completeness "q1" "q2" "q3" "s1" "s2" false true
    [("p", [("type", "INT64")])] [] (by decide) (by decide) (by decide)

/-! ## C5: dict-update and merge-by-name lemmas -/

section DictLemmas

variable {α : Type}

theorem pyLookup_nil (k : String) : pyLookup ([] : PyDict α) k = none := rfl

theorem pyLookup_cons (p : String × α) (t : PyDict α) (k : String) :
    pyLookup (p :: t) k = if p.1 == k then some p.2 else pyLookup t k := by
  cases hb : p.1 == k <;> simp [pyLookup, List.find?, hb]

theorem keysD_cons (p : String × α) (t : PyDict α) :
    keysD (p :: t) = p.1 :: keysD t := rfl

theorem pyLookup_eq_none_of_not_mem (d : PyDict α) (k : String) (h : k ∉ keysD d) :
    pyLookup d k = none := by
  induction d with
  | nil => rfl
  | cons p t ih =>
    rw [keysD_cons, List.mem_cons] at h
    push_neg at h
    rw [pyLookup_cons, if_neg (by simp [Ne.symm h.1]), ih h.2]

theorem setKey_cons (p : String × α) (t : PyDict α) (k : String) (v : α) :
    setKey (p :: t) k v = if p.1 == k then (k, v) :: t else p :: setKey t k v := rfl

theorem keysD_setKey (d : PyDict α) (k : String) (v : α) :
    keysD (setKey d k v) = if k ∈ keysD d then keysD d else keysD d ++ [k] := by
  induction d with
  | nil => simp [setKey, keysD]
  | cons p t ih =>
    rw [setKey_cons]
    cases hb : p.1 == k with
    | true =>
      have h : p.1 = k := by simpa using hb
      rw [if_pos rfl, keysD_cons, keysD_cons, h]
      simp
    | false =>
      have h : p.1 ≠ k := by simpa using hb
      simp only [Bool.false_eq_true, if_false]
      rw [keysD_cons, keysD_cons, ih]
      by_cases hk : k ∈ keysD t
      · rw [if_pos hk, if_pos (by simp [hk])]
      · rw [if_neg hk, if_neg (by simp [hk, Ne.symm h])]
        rfl

theorem pyLookup_setKey_self (d : PyDict α) (k : String) (v : α) :
    pyLookup (setKey d k v) k = some v := by
  induction d with
  | nil => simp [setKey, pyLookup_cons]
  | cons p t ih =>
    rw [setKey_cons]
    cases hb : p.1 == k with
    | true => rw [if_pos rfl, pyLookup_cons, if_pos (by simp)]
    | false =>
      simp only [Bool.false_eq_true, if_false]
      rw [pyLookup_cons, if_neg (by simp [hb]), ih]

theorem pyLookup_setKey_ne (d : PyDict α) (k k' : String) (v : α) (h : k' ≠ k) :
    pyLookup (setKey d k v) k' = pyLookup d k' := by
  induction d with
  | nil => simp [setKey, pyLookup_cons, pyLookup_nil, Ne.symm h]
  | cons p t ih =>
    rw [setKey_cons]
    cases hb : p.1 == k with
    | true =>
      have hpk : p.1 = k := by simpa using hb
      rw [if_pos rfl, pyLookup_cons, pyLookup_cons, hpk,
        if_neg (by simp [Ne.symm h]), if_neg (by simp [Ne.symm h])]
    | false =>
      simp only [Bool.false_eq_true, if_false]
      rw [pyLookup_cons, pyLookup_cons, ih]

theorem nodup_keysD_setKey (d : PyDict α) (k : String) (v : α)
    (h : (keysD d).Nodup) : (keysD (setKey d k v)).Nodup := by
  rw [keysD_setKey]
  by_cases hk : k ∈ keysD d
  · simpa [hk] using h
  · simp only [hk, if_false]
    rw [List.nodup_append]
    refine ⟨h, List.nodup_singleton k, ?_⟩
    intro a ha hb
    rw [List.mem_singleton] at hb
    exact hk (hb ▸ ha)

theorem lastLookup_cons (q : String × α) (t : PyDict α) (k : String) :
    lastLookup (q :: t) k =
      match lastLookup t k with
      | some v => some v
      | none => if q.1 == k then some q.2 else none := rfl

theorem lastLookup_eq_none_of_not_mem (d : PyDict α) (k : String) (h : k ∉ keysD d) :
    lastLookup d k = none := by
  induction d with
  | nil => rfl
  | cons p t ih =>
    rw [keysD_cons, List.mem_cons] at h
    push_neg at h
    rw [lastLookup_cons, ih h.2]
    simp [Ne.symm h.1]

theorem lastLookup_eq_pyLookup (d : PyDict α) (k : String) (h : (keysD d).Nodup) :
    lastLookup d k = pyLookup d k := by
  induction d with
  | nil => rfl
  | cons p t ih =>
    rw [keysD_cons, List.nodup_cons] at h
    rw [lastLookup_cons, ih h.2, pyLookup_cons]
    by_cases hk : p.1 = k
    · rw [pyLookup_eq_none_of_not_mem t k (hk ▸ h.1), if_pos (by simp [hk])]
    · rw [if_neg (by simp [hk])]
      cases hpy : pyLookup t k with
      | none => simp [hk]
      | some v => simp [hk]

theorem dictUpdate_cons (d : PyDict α) (q : String × α) (t : PyDict α) :
    dictUpdate d (q :: t) = dictUpdate (setKey d q.1 q.2) t := by
  simp [dictUpdate]

theorem pyLookup_dictUpdate (p : PyDict α) :
    ∀ (d : PyDict α) (k : String),
      pyLookup (dictUpdate d p) k =
        match lastLookup p k with
        | some v => some v
        | none => pyLookup d k := by
  induction p with
  | nil => intro d k; rfl
  | cons q t ih =>
    intro d k
    rw [dictUpdate_cons, ih, lastLookup_cons]
    cases hlt : lastLookup t k with
    | some v => rfl
    | none =>
      by_cases hk : q.1 = k
      · subst hk
        simp [pyLookup_setKey_self]
      · simp only [if_neg (by simp [hk] : ¬(q.1 == k) = true)]
        exact pyLookup_setKey_ne d q.1 k q.2 (Ne.symm hk)

theorem mem_keysD_setKey_self (d : PyDict α) (k : String) (v : α) :
    k ∈ keysD (setKey d k v) := by
  rw [keysD_setKey]
  by_cases hk : k ∈ keysD d
  · simp [hk]
  · simp [hk]

theorem mem_keysD_setKey_of_mem (d : PyDict α) (k k' : String) (v : α)
    (h : k' ∈ keysD d) : k' ∈ keysD (setKey d k v) := by
  rw [keysD_setKey]
  by_cases hk : k ∈ keysD d
  · simpa [hk]
  · simp [hk, h]

theorem mem_keysD_dictUpdate_left (p : PyDict α) :
    ∀ (d : PyDict α) (k : String), k ∈ keysD d → k ∈ keysD (dictUpdate d p) := by
  induction p with
  | nil => intro d k h; exact h
  | cons q t ih =>
    intro d k h
    rw [dictUpdate_cons]
    exact ih _ k (mem_keysD_setKey_of_mem d q.1 k q.2 h)

theorem mem_keysD_dictUpdate_right (p : PyDict α) :
    ∀ (d : PyDict α) (k : String), k ∈ keysD p → k ∈ keysD (dictUpdate d p) := by
  induction p with
  | nil => intro d k h; cases h
  | cons q t ih =>
    intro d k h
    rw [dictUpdate_cons]
    rw [keysD_cons, List.mem_cons] at h
    rcases h with h | h
    · exact mem_keysD_dictUpdate_left t _ k (h ▸ mem_keysD_setKey_self d q.1 q.2)
    · exact ih _ k h

theorem keysD_dictUpdate_of_sub (p : PyDict α) :
    ∀ (d : PyDict α), (∀ k ∈ keysD p, k ∈ keysD d) → keysD (dictUpdate d p) = keysD d := by
  induction p with
  | nil => intro d _; rfl
  | cons q t ih =>
    intro d h
    have hq : q.1 ∈ keysD d := h q.1 (by simp [keysD_cons])
    have hset : keysD (setKey d q.1 q.2) = keysD d := by
      rw [keysD_setKey, if_pos hq]
    rw [dictUpdate_cons, ih _ (fun k hk => by
      rw [hset]
      exact h k (by simp [keysD_cons, hk])), hset]

theorem nodup_keysD_dictUpdate (p : PyDict α) :
    ∀ (d : PyDict α), (keysD d).Nodup → (keysD (dictUpdate d p)).Nodup := by
  induction p with
  | nil => intro d h; exact h
  | cons q t ih =>
    intro d h
    rw [dictUpdate_cons]
    exact ih _ (nodup_keysD_setKey d q.1 q.2 h)

theorem dict_ext (d : PyDict α) :
    ∀ (d' : PyDict α), (keysD d).Nodup → keysD d = keysD d' →
      (∀ k, pyLookup d k = pyLookup d' k) → d = d' := by
  induction d with
  | nil =>
    intro d' _ hk _
    cases d' with
    | nil => rfl
    | cons p t => simp [keysD] at hk
  | cons p t ih =>
    intro d' hnd hk hl
    cases d' with
    | nil => simp [keysD] at hk
    | cons p' t' =>
      rw [keysD_cons, keysD_cons] at hk
      have hk1 : p.1 = p'.1 := ((List.cons.injEq _ _ _ _).mp hk).1
      have hk2 : keysD t = keysD t' := ((List.cons.injEq _ _ _ _).mp hk).2
      rw [keysD_cons, List.nodup_cons] at hnd
      have hv : p.2 = p'.2 := by
        have hp1 := hl p.1
        rw [pyLookup_cons, pyLookup_cons, if_pos (by simp), if_pos (by simp [hk1])] at hp1
        exact Option.some.inj hp1
      have ht : t = t' := by
        apply ih t' hnd.2 hk2
        intro k
        by_cases hkp : k = p.1
        · subst hkp
          rw [pyLookup_eq_none_of_not_mem t p.1 hnd.1,
            pyLookup_eq_none_of_not_mem t' p.1 (hk2 ▸ hnd.1)]
        · have hlk := hl k
          rw [pyLookup_cons, pyLookup_cons, if_neg (by simp [Ne.symm hkp]),
            if_neg (by simp [hk1 ▸ Ne.symm hkp])] at hlk
          exact hlk
      calc p :: t = (p.1, p.2) :: t := rfl
        _ = (p'.1, p'.2) :: t' := by rw [hk1, hv, ht]
        _ = p' :: t' := rfl

theorem dictUpdate_idem (d p : PyDict α) (h : (keysD d).Nodup) :
    dictUpdate (dictUpdate d p) p = dictUpdate d p := by
  apply dict_ext
  · exact nodup_keysD_dictUpdate p _ (nodup_keysD_dictUpdate p d h)
  · exact keysD_dictUpdate_of_sub p _ (fun k hk => mem_keysD_dictUpdate_right p d k hk)
  · intro k
    rw [pyLookup_dictUpdate, pyLookup_dictUpdate]
    cases lastLookup p k with
    | some v => rfl
    | none => rfl

end DictLemmas

/-! ## C5: collection-level merge lemmas -/

section MergeLemmas

variable {α : Type} [DecidableEq α]

omit [DecidableEq α] in
/-- Updating a record with a payload of equal name leaves its name
unchanged. -/
theorem pyLookup_dictUpdate_name (r p : PyDict α) (hp : (keysD p).Nodup)
    (h : pyLookup r "Name" = pyLookup p "Name") :
    pyLookup (dictUpdate r p) "Name" = pyLookup r "Name" := by
  rw [pyLookup_dictUpdate, lastLookup_eq_pyLookup p _ hp]
  cases hv : pyLookup p "Name" with
  | some v => simp [h, hv]
  | none => simp

theorem updFirst_cons (r : PyDict α) (t : List (PyDict α)) (p : PyDict α) :
    updFirst (r :: t) p =
      if pyLookup r "Name" == pyLookup p "Name" then dictUpdate r p :: t
      else r :: updFirst t p := rfl

/-- Applying the same payload record twice is the same as applying it
once. -/
theorem updFirst_idem (c : List (PyDict α)) (p : PyDict α)
    (hc : ∀ r ∈ c, (keysD r).Nodup) (hp : (keysD p).Nodup) :
    updFirst (updFirst c p) p = updFirst c p := by
  induction c with
  | nil => rfl
  | cons r t ih =>
    rw [updFirst_cons]
    cases hb : pyLookup r "Name" == pyLookup p "Name" with
    | true =>
      have heq : pyLookup r "Name" = pyLookup p "Name" := by
        exact eq_of_beq hb
      have hname := pyLookup_dictUpdate_name r p hp heq
      rw [if_pos rfl, updFirst_cons, if_pos (by rw [hname]; exact hb),
        dictUpdate_idem r p (hc r (List.mem_cons_self r t))]
    | false =>
      simp only [Bool.false_eq_true, if_false]
      rw [updFirst_cons, if_neg (by rw [hb]; exact Bool.false_ne_true),
        ih (fun x hx => hc x (List.mem_cons_of_mem r hx))]

/-- Payload records with different names act on disjoint records, so the
updates commute. -/
theorem updFirst_comm (c : List (PyDict α)) (p q : PyDict α)
    (hne : pyLookup p "Name" ≠ pyLookup q "Name")
    (hp : (keysD p).Nodup) (hq : (keysD q).Nodup) :
    updFirst (updFirst c q) p = updFirst (updFirst c p) q := by
  induction c with
  | nil => rfl
  | cons r t ih =>
    cases hbq : pyLookup r "Name" == pyLookup q "Name" with
    | true =>
      have heq : pyLookup r "Name" = pyLookup q "Name" := eq_of_beq hbq
      have hbp : (pyLookup r "Name" == pyLookup p "Name") = false := by
        rw [heq]
        exact beq_eq_false_iff_ne.mpr (fun hc => hne hc.symm)
      have hnameq := pyLookup_dictUpdate_name r q hq heq
      rw [updFirst_cons, if_pos (by rw [hbq]), updFirst_cons,
        if_neg (by rw [hnameq, hbp]; exact Bool.false_ne_true),
        updFirst_cons, if_neg (by rw [hbp]; exact Bool.false_ne_true),
        updFirst_cons, if_pos (by rw [hbq])]
    | false =>
      cases hbp : pyLookup r "Name" == pyLookup p "Name" with
      | true =>
        have heq : pyLookup r "Name" = pyLookup p "Name" := eq_of_beq hbp
        have hnamep := pyLookup_dictUpdate_name r p hp heq
        rw [updFirst_cons, if_neg (by rw [hbq]; exact Bool.false_ne_true),
          updFirst_cons, if_pos (by rw [hbp]),
          updFirst_cons, if_pos (by rw [hbp]),
          updFirst_cons, if_neg (by rw [hnamep, hbq]; exact Bool.false_ne_true)]
      | false =>
        rw [updFirst_cons, if_neg (by rw [hbq]; exact Bool.false_ne_true),
          updFirst_cons, if_neg (by rw [hbp]; exact Bool.false_ne_true),
          updFirst_cons, if_neg (by rw [hbp]; exact Bool.false_ne_true),
          updFirst_cons, if_neg (by rw [hbq]; exact Bool.false_ne_true), ih]

/-- `updFirst` keeps every record's key set well-formed. -/
theorem updFirst_nodup (c : List (PyDict α)) (p : PyDict α)
    (hc : ∀ r ∈ c, (keysD r).Nodup) :
    ∀ r ∈ updFirst c p, (keysD r).Nodup := by
  induction c with
  | nil => intro r hr; cases hr
  | cons r0 t ih =>
    intro r hr
    rw [updFirst_cons] at hr
    by_cases hb : (pyLookup r0 "Name" == pyLookup p "Name") = true
    · rw [if_pos hb] at hr
      rcases List.mem_cons.mp hr with hr | hr
      · subst hr
        exact nodup_keysD_dictUpdate p r0 (hc r0 (List.mem_cons_self r0 t))
      · exact hc r (List.mem_cons_of_mem r0 hr)
    · rw [if_neg hb] at hr
      rcases List.mem_cons.mp hr with hr | hr
      · subst hr
        exact hc r (List.mem_cons_self r t)
      · exact ih (fun x hx => hc x (List.mem_cons_of_mem r0 hx)) r hr

theorem mergeByName_cons (c : List (PyDict α)) (p : PyDict α) (t : List (PyDict α)) :
    mergeByName c (p :: t) = mergeByName (updFirst c p) t := by
  simp [mergeByName]

/-- A payload record whose name differs from every record of a payload
list commutes past the whole list. -/
theorem updFirst_mergeByName_comm (ps : List (PyDict α)) :
    ∀ (c : List (PyDict α)) (p : PyDict α), (keysD p).Nodup →
      (∀ q ∈ ps, (keysD q).Nodup ∧ pyLookup q "Name" ≠ pyLookup p "Name") →
      updFirst (mergeByName c ps) p = mergeByName (updFirst c p) ps := by
  induction ps with
  | nil => intro c p _ _; rfl
  | cons q t ih =>
    intro c p hp hqs
    have hq := hqs q (List.mem_cons_self q t)
    rw [mergeByName_cons, mergeByName_cons,
      ih (updFirst c q) p hp (fun x hx => hqs x (List.mem_cons_of_mem q hx)),
      updFirst_comm c p q (fun hc => hq.2 hc.symm) hp hq.1]

/-- Merging the same payload twice equals merging it once. -/
theorem mergeByName_idem (ps : List (PyDict α)) :
    ∀ (c : List (PyDict α)),
      (∀ r ∈ c, (keysD r).Nodup) →
      (∀ q ∈ ps, (keysD q).Nodup) →
      (ps.map (fun q => pyLookup q "Name")).Nodup →
      mergeByName (mergeByName c ps) ps = mergeByName c ps := by
  induction ps with
  | nil => intro c _ _ _; rfl
  | cons p t ih =>
    intro c hc hq hnames
    rw [List.map_cons, List.nodup_cons] at hnames
    have hp : (keysD p).Nodup := hq p (List.mem_cons_self p t)
    have hqt : ∀ q ∈ t, (keysD q).Nodup := fun x hx => hq x (List.mem_cons_of_mem p hx)
    have hcp : ∀ r ∈ updFirst c p, (keysD r).Nodup := updFirst_nodup c p hc
    have hdiff : ∀ q ∈ t, (keysD q).Nodup ∧ pyLookup q "Name" ≠ pyLookup p "Name" := by
      intro x hx
      refine ⟨hqt x hx, fun hcon => ?_⟩
      exact hnames.1 (List.mem_map.mpr ⟨x, hx, hcon⟩)
    rw [mergeByName_cons c p t,
      mergeByName_cons (mergeByName (updFirst c p) t) p t,
      updFirst_mergeByName_comm t (updFirst c p) p hp hdiff,
      updFirst_idem c p hc hp,
      ih (updFirst c p) hcp hqt hnames.2]

/-- A record whose name matches no payload record is carried through one
update unchanged. -/
theorem mem_updFirst_of_ne (c : List (PyDict α)) (p r : PyDict α)
    (hr : r ∈ c) (hne : pyLookup p "Name" ≠ pyLookup r "Name") :
    r ∈ updFirst c p := by
  induction c with
  | nil => cases hr
  | cons r0 t ih =>
    rw [updFirst_cons]
    by_cases hb : (pyLookup r0 "Name" == pyLookup p "Name") = true
    · rw [if_pos hb]
      rcases List.mem_cons.mp hr with hr | hr
      · exact absurd (eq_of_beq hb).symm (hr ▸ hne)
      · exact List.mem_cons_of_mem _ hr
    · rw [if_neg hb]
      rcases List.mem_cons.mp hr with hr | hr
      · exact hr ▸ List.mem_cons_self r0 (updFirst t p)
      · exact List.mem_cons_of_mem _ (ih hr)

/-- A record whose name matches no payload record is retained by the
whole merge, unchanged. -/
theorem mem_mergeByName_of_ne (ps : List (PyDict α)) :
    ∀ (c : List (PyDict α)) (r : PyDict α), r ∈ c →
      (∀ q ∈ ps, pyLookup q "Name" ≠ pyLookup r "Name") →
      r ∈ mergeByName c ps := by
  induction ps with
  | nil => intro c r hr _; exact hr
  | cons p t ih =>
    intro c r hr hne
    rw [mergeByName_cons]
    exact ih _ r (mem_updFirst_of_ne c p r hr (hne p (List.mem_cons_self p t)))
      (fun q hq => hne q (List.mem_cons_of_mem p hq))

end MergeLemmas

/-- C5 (amended): merging a JSON payload into a scraped collection by
name is idempotent — merging the same payload twice yields the same
collection as merging it once — and a record present only in the text
scrape (its name matching no payload record) is retained unchanged.
(The converse direction of the original claim is FALSE: a payload record
matching no scraped record is ignored, not added — see the
counterexample.)  Hypotheses: every record and payload dict has distinct
keys, and payload names are distinct — both invariants of the JSON
schema payloads the source consumes. -/
theorem c5_merge_idempotent_retention (c ps : List (PyDict JVal))
    (hc : ∀ r ∈ c, (keysD r).Nodup)
    (hq : ∀ q ∈ ps, (keysD q).Nodup)
    (hnames : (ps.map (fun q => pyLookup q "Name")).Nodup) :
    mergeByName (mergeByName c ps) ps = mergeByName c ps
    ∧ ∀ r ∈ c, (∀ q ∈ ps, pyLookup q "Name" ≠ pyLookup r "Name") →
        r ∈ mergeByName c ps := by
  constructor
  · exact mergeByName_idem ps c hc hq hnames
  · intro r hr hne
    exact mem_mergeByName_of_ne ps c r hr hne

/-- Witness for C5 at a concrete collection and payload. -/
theorem c5_merge_idempotent_retention_witness :
    (mergeByName
        (mergeByName
          [[("Name", JVal.str "v1"), ("Statement", JVal.str "VERTEX v1(id INT)")],
           [("Name", JVal.str "v2")]]
          [[("Name", JVal.str "v1"), ("Attributes", JVal.attrs [("a", "INT64")])]])
        [[("Name", JVal.str "v1"), ("Attributes", JVal.attrs [("a", "INT64")])]]
      = mergeByName
          [[("Name", JVal.str "v1"), ("Statement", JVal.str "VERTEX v1(id INT)")],
           [("Name", JVal.str "v2")]]
          [[("Name", JVal.str "v1"), ("Attributes", JVal.attrs [("a", "INT64")])]])
    ∧ [("Name", JVal.str "v2")] ∈ mergeByName
          [[("Name", JVal.str "v1"), ("Statement", JVal.str "VERTEX v1(id INT)")],
           [("Name", JVal.str "v2")]]
          [[("Name", JVal.str "v1"), ("Attributes", JVal.attrs [("a", "INT64")])]] := by
  have h := c5_merge_idempotent_retention
    [[("Name", JVal.str "v1"), ("Statement", JVal.str "VERTEX v1(id INT)")],
     [("Name", JVal.str "v2")]]
    [[("Name", JVal.str "v1"), ("Attributes", JVal.attrs [("a", "INT64")])]]
    (by decide) (by decide) (by decide)
  exact ⟨h.1, h.2 [("Name", JVal.str "v2")] (by decide) (by decide)⟩

/-- C5 counterexample to the claim as stated: a JSON payload record whose
name (`v9`) matches no scraped record is dropped by the merge — the
merged collection holds no record named `v9` — so "a record present in
only one of the two sources is retained" fails in the JSON-only
direction (the text scrape is authoritative for existence). -/
theorem c5_counterexample :
    mergeByName
      [[("Name", JVal.str "v1"), ("Statement", JVal.str "VERTEX v1(id INT)")]]
      [[("Name", JVal.str "v1"), ("Attributes", JVal.attrs [("a", "INT64")])],
       [("Name", JVal.str "v9"), ("Attributes", JVal.attrs [])]]
    = [[("Name", JVal.str "v1"), ("Statement", JVal.str "VERTEX v1(id INT)"),
        ("Attributes", JVal.attrs [("a", "INT64")])]]
    ∧ ¬ ∃ r ∈ mergeByName
        [[("Name", JVal.str "v1"), ("Statement", JVal.str "VERTEX v1(id INT)")]]
        [[("Name", JVal.str "v1"), ("Attributes", JVal.attrs [("a", "INT64")])],
         [("Name", JVal.str "v9"), ("Attributes", JVal.attrs [])]],
        pyLookup r "Name" = some (JVal.str "v9") := by
  constructor
  · decide
  · decide

/-! ## C6: reserved administrative account is NOT skipped -/

/-- C6 counterexample to the claim as stated: the `SHOW USER` output with
the reserved administrative account (`tigergraph`) followed by two
ordinary users parses to THREE records, not two — `_getUsers` contains no
reserved-account recognition. -/
theorem c6_counterexample :
    (usersOf (_getUsers resUsers)).map UserRec.Name = ["tigergraph", "u1", "u2"]
    ∧ (usersOf (_getUsers resUsers)).length ≠ 2 := by
  constructor
  · decide
  · decide

/-- C6 (amended): every block whose header contains `- Name:` yields a
record, the reserved administrative account included; the admin block
plus two ordinary users yield three records in order of appearance, the
two ordinary users' records in their order after the admin's. -/
theorem c6_users_not_skipped :
    _getUsers resUsers = .ok
      [{ Name := "tigergraph", GlobalRoles := ["superuser"], LocalRoles := [], Secrets := [] },
       { Name := "u1", GlobalRoles := ["admin", "querywriter"], LocalRoles := [], Secrets := [] },
       { Name := "u2", GlobalRoles := ["queryreader"], LocalRoles := [], Secrets := [] }] := by
  decide

/-! ## C7: the deprecated flag and the listing-line name slice -/

/-- C7 counterexample to the claim as stated: the listing line
`- q4 (deprecated)` yields the name `"q4 "` (trailing space: the slice
runs to the first `(`, which here follows a space), and `- q5` (no
parenthesis at all) yields `"q"` (Python's `line.find("(") == -1` makes
the slice drop the last character) — neither record is named as the
claim requires. -/
theorem c7_counterexample :
    (qusOf (_ls "g" noQ resQu)).map QueryRec.Name = ["q4 ", "q"]
    ∧ ¬ ∃ q ∈ qusOf (_ls "g" noQ resQu), q.Name = "q4" := by
  constructor
  · decide
  · decide

/-- C7 (amended): the Deprecated flag is set exactly when the listing
line ends with the literal suffix `(deprecated)` (first conjunct, all
lines and oracles); on the claimed two-line section the flags are
`true`/`false` as claimed but the names are `"q4 "` and `"q"` — the name
is the slice from after the bullet to the first `(` of the raw line. -/
theorem c7_deprecated_flag :
    (∀ (showQ : String → List String) (line : String),
       (parseQueryLine showQ line).Deprecated = pyEndsWith line "(deprecated)")
    ∧ qusOf (_ls "g" noQ resQu) =
        [{ Name := "q4 ", Statement := "", Deprecated := true },
         { Name := "q", Statement := "", Deprecated := false }] :=
  ⟨fun _ _ => rfl, by decide⟩

/-! ## C8: getSchema ensures the global scope first and caching is a no-op -/

theorem lookupSch_setSch_self (st : ConnSt) (g : String) (v : SchemaObj) :
    lookupSch (setSch st g v) g = some v := by
  simp [lookupSch, setSch, pyLookup_setKey_self]

theorem lookupSch_setSch_ne (st : ConnSt) (g g' : String) (v : SchemaObj) (h : g' ≠ g) :
    lookupSch (setSch st g v) g' = lookupSch st g' := by
  simp [lookupSch, setSch, pyLookup_setKey_ne _ _ _ _ h]

/-- C8 (confirmed): (i) after any `getSchema` call the GLOBAL scope's
schema is cached; (ii) when a graph-local refresh occurs, either the
effect trace starts with the global refresh, or the global schema was
already cached and `force` was off — the global scope is always ensured
before graph-local work; (iii) when `force` is off and both the global
and the current graph's schemas are cached, the call performs no refresh
effect at all and returns the cached schema with the state unchanged. -/
theorem c8_global_first_cached_frame (fg fl : SchemaObj) (st : ConnSt) (force : Bool) :
    ((lookupSch (getSchemaF fg fl st force).1 GLOBAL).isSome = true)
    ∧ (∀ g, Eff.fetchLocal g ∈ (getSchemaF fg fl st force).2.2 →
        (getSchemaF fg fl st force).2.2.head? = some Eff.fetchGlobal
        ∨ ((lookupSch st GLOBAL).isSome = true ∧ force = false))
    ∧ (force = false → ∀ s, (lookupSch st GLOBAL).isSome = true →
        lookupSch st st.graphName = some s →
        getSchemaF fg fl st force = (st, some s, [])) := by
  refine ⟨?_, ?_, ?_⟩
  · simp only [getSchemaF]
    cases hG : ((lookupSch st GLOBAL).isNone || force) with
    | true =>
      simp only [if_true]
      cases hL : (st.graphName != GLOBAL
          && ((lookupSch (setSch st GLOBAL fg) st.graphName).isNone || force)) with
      | true =>
        have hne : st.graphName ≠ GLOBAL := by
          have := (Bool.and_eq_true _ _).mp hL |>.1
          exact bne_iff_ne.mp this
        simp only [hG, hL, if_true]
        rw [lookupSch_setSch_ne _ _ _ _ (Ne.symm hne), lookupSch_setSch_self]
        rfl
      | false =>
        simp only [hG, hL, Bool.false_eq_true, if_false, if_true]
        rw [lookupSch_setSch_self]
        rfl
    | false =>
      have hGs : (lookupSch st GLOBAL).isSome = true := by
        rcases Bool.or_eq_false_iff.mp hG with ⟨h1, _⟩
        simpa [Option.isNone_eq_false_iff] using h1
      simp only [hG, Bool.false_eq_true, if_false]
      cases hL : (st.graphName != GLOBAL && ((lookupSch st st.graphName).isNone || force)) with
      | true =>
        have hne : st.graphName ≠ GLOBAL := by
          have := (Bool.and_eq_true _ _).mp hL |>.1
          exact bne_iff_ne.mp this
        simp only [hL, if_true]
        rw [lookupSch_setSch_ne _ _ _ _ (Ne.symm hne)]
        exact hGs
      | false =>
        simp only [hL, Bool.false_eq_true, if_false]
        exact hGs
  · intro g hg
    by_cases hGb : ((lookupSch st GLOBAL).isNone || force) = true
    · left
      simp only [getSchemaF, hGb, if_true] at hg ⊢
      cases hL : (st.graphName != GLOBAL
          && ((lookupSch (setSch st GLOBAL fg) st.graphName).isNone || force)) with
      | true => simp [hL]
      | false => simp [hL] at hg ⊢
    · right
      have hGf : ((lookupSch st GLOBAL).isNone || force) = false := by
        cases h : ((lookupSch st GLOBAL).isNone || force) with
        | false => rfl
        | true => exact absurd h hGb
      rcases Bool.or_eq_false_iff.mp hGf with ⟨h1, h2⟩
      exact ⟨by simpa [Option.isNone_eq_false_iff] using h1, h2⟩
  · intro hforce s hGs hLs
    have hG : ((lookupSch st GLOBAL).isNone || force) = false := by
      rw [hforce, Bool.or_false, Option.isNone_eq_false_iff]
      exact hGs
    have hL : (st.graphName != GLOBAL && ((lookupSch st st.graphName).isNone || force)) = false := by
      rw [hforce, Bool.or_false]
      cases hbn : (st.graphName != GLOBAL) with
      | false => rfl
      | true =>
        rw [Bool.true_and, hLs]
        rfl
    simp only [getSchemaF, hG, hL, Bool.false_eq_true, if_false]
    simp [hLs]

/-- Witness for C8: with both scopes cached and `force = false` the call
is a pure cache read. -/
theorem c8_global_first_cached_frame_witness :
    getSchemaF [] []
      ⟨"g", [(GLOBAL, some [(VTS, LsCol.vcol [])]), ("g", some [(QUS, LsCol.qcol [])])]⟩ false
    = (⟨"g", [(GLOBAL, some [(VTS, LsCol.vcol [])]), ("g", some [(QUS, LsCol.qcol [])])]⟩,
       some [(QUS, LsCol.qcol [])], []) :=
  (c8_global_first_cached_frame [] []
      ⟨"g", [(GLOBAL, some [(VTS, LsCol.vcol [])]), ("g", some [(QUS, LsCol.qcol [])])]⟩
      false).2.2 rfl [(QUS, LsCol.qcol [])] (by decide) (by decide)

/-! ## C9: the collections a schema dict exposes depend on the scope -/

/-- C9 (amended): whatever the input lines and oracle, a successful `_ls`
scrape publishes exactly the keys `VertexTypes, Indexes, EdgeTypes,
DataSources, SchemaChangeJobs, UserDefinedTypes` in the GLOBAL scope, and
exactly `VertexTypes, Indexes, EdgeTypes, Queries, DataSources,
LoadingJobs, SchemaChangeJobs, Tags` in a graph scope — so `Queries` and
`LoadingJobs` are NOT exposed in the GLOBAL scope, and `UserDefinedTypes`
is not exposed in a graph scope. -/
theorem c9_schema_collections (g : String) (showQ : String → List String)
    (res : List String) (ret : List (String × LsCol))
    (h : _ls g showQ res = .ok ret) :
    ret.map Prod.fst =
      if g == GLOBAL then [VTS, IXS, ETS, DSS, SCJS, UDTS]
      else [VTS, IXS, ETS, QUS, DSS, LJS, SCJS, TAGS] := by
  rw [_ls] at h
  cases hls : lsLoop showQ (res.length + 1) res 0 emptyAcc with
  | ok a =>
    rw [hls] at h
    have hr : ret = lsAssemble g a := (Except.ok.inj h).symm
    subst hr
    rw [lsAssemble]
    cases hg : (g == GLOBAL) with
    | true => simp
    | false => simp
  | error e =>
    rw [hls] at h
    cases h

/-- Witness for C9 at a concrete successful scrape (empty LS output,
GLOBAL scope). -/
theorem c9_schema_collections_witness :
    ([(VTS, LsCol.vcol []), (IXS, LsCol.icol []), (ETS, LsCol.ecol []),
      (DSS, LsCol.dcol []), (SCJS, LsCol.scol []),
      (UDTS, LsCol.ucol [])] : List (String × LsCol)).map Prod.fst =
      if GLOBAL == GLOBAL then [VTS, IXS, ETS, DSS, SCJS, UDTS]
      else [VTS, IXS, ETS, QUS, DSS, LJS, SCJS, TAGS] :=
  c9_schema_collections GLOBAL noQ [] _ (by decide)

/-- C9 counterexample to the claim as stated: in the GLOBAL scope the
published dict has no `LoadingJobs` key (nor `Queries`), so
`getLoadingJobs` fails there with a `KeyError` instead of succeeding. -/
theorem c9_counterexample :
    _ls GLOBAL noQ [] = .ok [(VTS, LsCol.vcol []), (IXS, LsCol.icol []),
      (ETS, LsCol.ecol []), (DSS, LsCol.dcol []), (SCJS, LsCol.scol []),
      (UDTS, LsCol.ucol [])]
    ∧ "LoadingJobs" ∉ ([VTS, IXS, ETS, DSS, SCJS, UDTS] : List String)
    ∧ getLoadingJobsNames [(VTS, LsCol.vcol []), (IXS, LsCol.icol []),
        (ETS, LsCol.ecol []), (DSS, LsCol.dcol []), (SCJS, LsCol.scol []),
        (UDTS, LsCol.ucol [])] = .error "KeyError: LoadingJobs" := by
  refine ⟨by decide, by decide, by decide⟩

/-! ## C10: lookup accessors on absent names -/

/-- C10 (confirmed): for a name matching no record, `getVertexType`,
`getIndex` and `getEdgeType` return the empty dict and `getUDT` raises
`TigerGraphException ("Invalid UDT name: " + name)`; a non-empty result
is always one of the stored records, never a partial one. -/
theorem c10_lookup_fallbacks (vts ixs ets udts : List (PyDict JVal)) (n : String) :
    ((∀ r ∈ vts, pyLookup r "Name" ≠ some (JVal.str n)) → getVertexTypeRec vts n = [])
    ∧ ((∀ r ∈ ixs, pyLookup r "Name" ≠ some (JVal.str n)) → getIndexRec ixs n = [])
    ∧ ((∀ r ∈ ets, pyLookup r "Name" ≠ some (JVal.str n)) → getEdgeTypeRec ets n = [])
    ∧ ((∀ r ∈ udts, pyLookup r "Name" ≠ some (JVal.str n)) →
        getUDTRec udts n = .error ("Invalid UDT name: " ++ n))
    ∧ (∀ r, getVertexTypeRec vts n = r → r ≠ [] → r ∈ vts)
    ∧ (∀ r, getIndexRec ixs n = r → r ≠ [] → r ∈ ixs)
    ∧ (∀ r, getEdgeTypeRec ets n = r → r ≠ [] → r ∈ ets)
    ∧ (∀ r, getUDTRec udts n = .ok r → r ∈ udts) := by
  have hnone : ∀ (l : List (PyDict JVal)),
      (∀ r ∈ l, pyLookup r "Name" ≠ some (JVal.str n)) →
      l.find? (fun r => pyLookup r "Name" == some (JVal.str n)) = none := by
    intro l hl
    rw [List.find?_eq_none]
    intro x hx
    simpa using hl x hx
  refine ⟨fun h => ?_, fun h => ?_, fun h => ?_, fun h => ?_,
    fun r hr hne => ?_, fun r hr hne => ?_, fun r hr hne => ?_, fun r hr => ?_⟩
  · rw [getVertexTypeRec, hnone vts h]
  · rw [getIndexRec, hnone ixs h]
  · rw [getEdgeTypeRec, hnone ets h]
  · rw [getUDTRec, hnone udts h]
  · rw [getVertexTypeRec] at hr
    cases hf : vts.find? (fun r => pyLookup r "Name" == some (JVal.str n)) with
    | some x =>
      rw [hf] at hr
      exact hr ▸ List.mem_of_find?_eq_some hf
    | none =>
      rw [hf] at hr
      exact absurd hr.symm hne
  · rw [getIndexRec] at hr
    cases hf : ixs.find? (fun r => pyLookup r "Name" == some (JVal.str n)) with
    | some x =>
      rw [hf] at hr
      exact hr ▸ List.mem_of_find?_eq_some hf
    | none =>
      rw [hf] at hr
      exact absurd hr.symm hne
  · rw [getEdgeTypeRec] at hr
    cases hf : ets.find? (fun r => pyLookup r "Name" == some (JVal.str n)) with
    | some x =>
      rw [hf] at hr
      exact hr ▸ List.mem_of_find?_eq_some hf
    | none =>
      rw [hf] at hr
      exact absurd hr.symm hne
  · rw [getUDTRec] at hr
    cases hf : udts.find? (fun r => pyLookup r "Name" == some (JVal.str n)) with
    | some x =>
      rw [hf] at hr
      exact (Except.ok.inj hr) ▸ List.mem_of_find?_eq_some hf
    | none =>
      rw [hf] at hr
      cases hr

/-- Witness for C10 at concrete collections and an absent name. -/
theorem c10_lookup_fallbacks_witness :
    getVertexTypeRec [[("Name", JVal.str "v1")]] "zz" = []
    ∧ getUDTRec [[("Name", JVal.str "t1")]] "zz" = .error ("Invalid UDT name: " ++ "zz") :=
  ⟨(c10_lookup_fallbacks [[("Name", JVal.str "v1")]] [] [] [[("Name", JVal.str "t1")]]
      "zz").1 (by decide),
   (c10_lookup_fallbacks [[("Name", JVal.str "v1")]] [] [] [[("Name", JVal.str "t1")]]
      "zz").2.2.2.1 (by decide)⟩
